import Mathlib

/-!
Verification development for the stereogram renderer
(`js/stereogram.js` and the parallel Three.js implementation
`js/stereo_three.js`).  The JavaScript code is shallowly embedded:
JS numbers are modelled as `Int` where the program only ever holds
integers (pixel counts, strip counts) and as `ℚ` where fractional
values flow (strip-size fractions, texture coordinates, shader
arithmetic).  GPU texture sampling and the GLSL `sin` function are
abstracted into an explicit environment of sampler functions.
-/

namespace Stereogram

/-- Constant `Stereogram.BG_NOISE` from the source. -/
def BG_NOISE : Int := 0

/-- Constant `Stereogram.BG_TILE` from the source. -/
def BG_TILE : Int := 1

/-- JavaScript `x || 1` on an integer value: `0` is falsy and is replaced
by `1`; every other integer (negatives included) is truthy and kept. -/
def jsOr1 (x : Int) : Int := if x = 0 then 1 else x

/-- Arithmetic step behind the strip-size adjustment loop: when the
remainder of `-p` modulo `D` is nonzero, advancing `p` by one decreases
that remainder by one. -/
theorem emod_neg_succ_step (D p : Int) (hD : 0 < D) (hne : (-p) % D ≠ 0) :
    (-(p + 1)) % D = (-p) % D - 1 := by
  have hr0 : 0 ≤ (-p) % D := Int.emod_nonneg _ (by omega)
  have hrlt : (-p) % D < D := Int.emod_lt_of_pos _ hD
  have e0 : (-p) % D + D * ((-p) / D) = -p := Int.emod_add_ediv (-p) D
  have e1 : (-(p + 1) : Int) = ((-p) % D - 1) + D * ((-p) / D) := by
    linarith
  rw [e1, Int.add_mul_emod_self_left]
  exact Int.emod_eq_of_lt (by omega) (by omega)

/-- For nonzero `d`, `d` divides `p` exactly when the remainder of `-p`
modulo `d.natAbs` vanishes — links the JS loop guard (`p % d != 0`) with
the termination measure. -/
theorem emod_neg_natAbs_ne_zero {d p : Int} (_hd : d ≠ 0) (hp : p % d ≠ 0) :
    (-p) % (d.natAbs : Int) ≠ 0 := by
  intro h0
  have hdvd : ((d.natAbs : Int)) ∣ (-p) := Int.dvd_of_emod_eq_zero h0
  have hdvd' : d ∣ p := by
    have : ((d.natAbs : Int)) ∣ p := dvd_neg.mp hdvd
    exact (Int.natAbs_dvd).mp this
  exact hp (Int.emod_eq_zero_of_dvd hdvd')

/-- The loop `while (strip_size_pixels % num_sub_strips != 0) strip_size_pixels++;`
from `_calc_strip_size`.  The zero-test of the JS remainder agrees with
divisibility by `d`, so the guard is stated with `%` on `Int` (Euclidean
remainder: it is zero exactly when the JS remainder is).  The source loop
would run forever for `d = 0`; that argument is unreachable because the
caller coerces `num_sub_strips` with `|| 1`, and the model returns `p`
immediately in that impossible case. -/
def next_multiple (d p : Int) : Int :=
  if _h : d = 0 then p
  else if p % d = 0 then p
  else next_multiple d (p + 1)
termination_by ((-p) % (d.natAbs : Int)).toNat
decreasing_by
  rename_i hp
  have hD : (0 : Int) < (d.natAbs : Int) := by
    exact_mod_cast Int.natAbs_pos.mpr _h
  have hrne := emod_neg_natAbs_ne_zero _h hp
  have hr0 : 0 ≤ (-p) % (d.natAbs : Int) := Int.emod_nonneg _ (by omega)
  have hstep := emod_neg_succ_step (d.natAbs : Int) p hD hrne
  omega

/-- Closed form of the strip-size adjustment loop: it adds exactly the
distance to the next multiple of `d`. -/
theorem next_multiple_eq (d p : Int) (hd : d ≠ 0) :
    next_multiple d p = p + (-p) % (d.natAbs : Int) := by
  induction p using next_multiple.induct d with
  | case1 p hzero => exact absurd hzero hd
  | case2 p hd0 hp =>
    unfold next_multiple
    simp only [dif_neg hd0, if_pos hp]
    have hdvd : ((d.natAbs : Int)) ∣ p := by
      rw [Int.natAbs_dvd]
      exact Int.dvd_of_emod_eq_zero hp
    have : (-p) % (d.natAbs : Int) = 0 := by
      apply Int.emod_eq_zero_of_dvd
      exact dvd_neg.mpr hdvd
    omega
  | case3 p hd0 hp ih =>
    unfold next_multiple
    simp only [dif_neg hd0, if_neg hp]
    rw [ih]
    have hD : (0 : Int) < (d.natAbs : Int) := by
      exact_mod_cast Int.natAbs_pos.mpr hd
    have hrne := emod_neg_natAbs_ne_zero hd hp
    have hstep := emod_neg_succ_step (d.natAbs : Int) p hD hrne
    omega

/-- Function `_calc_strip_size` (both implementations are identical): the integer
pixel width of one strip.  `Math.ceil(render_width / num_strips)` on the
(coerced) integer inputs is the ceiling of the exact rational quotient. -/
def calc_strip_size_pixels (render_width num_strips num_sub_strips : Int) : Int :=
  let rw := jsOr1 render_width
  let ns := jsOr1 num_strips
  let nss := jsOr1 num_sub_strips
  next_multiple nss ⌈(rw : ℚ) / (ns : ℚ)⌉

/-- Function `_calc_strip_size`: the stored `strip_size` fraction
`strip_size_pixels / render_width` (with the same `|| 1` coercion the
source applies to its local `render_width`). -/
def calc_strip_size (render_width num_strips num_sub_strips : Int) : ℚ :=
  ((calc_strip_size_pixels render_width num_strips num_sub_strips : ℚ)) /
    ((jsOr1 render_width : Int) : ℚ)

theorem jsOr1_ne_zero (x : Int) : jsOr1 x ≠ 0 := by
  unfold jsOr1; split <;> omega

theorem jsOr1_of_pos {x : Int} (h : 0 < x) : jsOr1 x = x := by
  unfold jsOr1; split <;> omega

theorem jsOr1_idem (x : Int) : jsOr1 (jsOr1 x) = jsOr1 x := by
  unfold jsOr1; split <;> simp

/-! ### Textures, samplers, and the renderer state -/

/-- An RGB color sample (the alpha channel is constant in every shader). -/
abbrev Color := ℚ × ℚ × ℚ

/-- The clear color `(0,0,0)` set by `gl.clearColor(0,0,0,1)` and the
content of a freshly created stereogram texture. -/
def black : Color := ((0 : ℚ), (0 : ℚ), (0 : ℚ))

/-- A GPU texture: its allocation size plus per-texel contents. -/
structure Texture where
  width : Int
  height : Int
  data : Int → Int → Color

/-- Constructor `Stereogram.Util.create_texture(gl, w, h)` /
`THREE.ImageUtils.generateDataTexture(w, h, {r:0,g:0,b:0})`:
a fresh `w × h` texture with zeroed contents. -/
def blankTexture (w h : Int) : Texture := ⟨w, h, fun _ _ => black⟩

/-- External functions the shaders call but whose implementations live in
the GPU/driver: the GLSL `sin`, bilinear texture sampling of a texture
object, the depth map's red channel, and the background tile image. -/
structure Env where
  sinq : ℚ → ℚ
  sample : Texture → ℚ → ℚ → Color
  depth_red : ℚ → ℚ → ℚ
  tile : ℚ → ℚ → Color

/-- The fields of a `Stereogram.Renderer` object.  `gl` stands for the
capability handles the object carries (the WebGL context and the three
compiled shader program objects); they carry no rendering semantics. -/
structure Renderer where
  gl : Nat
  render_width : Int
  render_height : Int
  num_strips : Int
  num_sub_strips : Int
  strip_size : ℚ
  depth_factor : ℚ
  background_mode : Int
  noise_seed : ℚ
  tile_texture : Option Nat
  bg_scroll_x : ℚ
  bg_scroll_y : ℚ
  stereo_texture : Texture

/-- Method `_calc_strip_size` as a state update: recompute `this.strip_size`
from the current width and strip counts. -/
def Renderer.calcStripSize (r : Renderer) : Renderer :=
  { r with strip_size := calc_strip_size r.render_width r.num_strips r.num_sub_strips }

/-- Method `resize(width, height)`: store the new size and replace the
stereogram texture with a fresh `width × height` one.  (In
`stereogram.js` the delete of the old texture goes through a global `gl`
binding rather than `this.gl`; the Three.js implementation disposes the
old texture cleanly.  The texture lifecycle is modelled by replacement.)
Note the source does not touch `strip_size` here. -/
def Renderer.resize (r : Renderer) (w h : Int) : Renderer :=
  { r with render_width := w, render_height := h, stereo_texture := blankTexture w h }

/-- Method `setNumStrips(n)`: a negative request is resolved to
`Math.ceil(8 * this.render_width / 1000)` before the geometry is
recomputed. -/
def Renderer.setNumStrips (r : Renderer) (n : Int) : Renderer :=
  let n' := if n < 0 then ⌈(8 * (r.render_width : ℚ)) / 1000⌉ else n
  ({ r with num_strips := n' }).calcStripSize

/-- Method `setNumSubStrips(n)`. -/
def Renderer.setNumSubStrips (r : Renderer) (n : Int) : Renderer :=
  ({ r with num_sub_strips := n }).calcStripSize

/-- Method `setBackgroundMode(mode)`.  The argument is an arbitrary JS value;
`none` models `undefined` (such as the demo's `Stereogram.BG_SCROLL`).
JS loose equality `mode == Stereogram.BG_NOISE` holds on this domain
exactly for the number `0`. -/
def Renderer.setBackgroundMode (r : Renderer) (mode : Option Int) : Renderer :=
  { r with background_mode := if mode = some BG_NOISE then BG_NOISE else BG_TILE }

/-- Method `setBackgroundTileTexture(texture)` (the texture object handle). -/
def Renderer.setBackgroundTileTexture (r : Renderer) (t : Option Nat) : Renderer :=
  { r with tile_texture := t }

/-- Method `setBackgroundTileScroll(x, y)`. -/
def Renderer.setBackgroundTileScroll (r : Renderer) (x y : ℚ) : Renderer :=
  { r with bg_scroll_x := x, bg_scroll_y := y }

/-- Method `setNoiseSeed(seed)`. -/
def Renderer.setNoiseSeed (r : Renderer) (s : ℚ) : Renderer :=
  { r with noise_seed := s }

/-- Method `setDepthFactor(depth_factor)`. -/
def Renderer.setDepthFactor (r : Renderer) (f : ℚ) : Renderer :=
  { r with depth_factor := f }

/-- The `Stereogram.Renderer` constructor: the sequence of setter calls
from the source, starting from a blank object (unset JS fields are
`undefined`, which the only read before assignment — `num_sub_strips`
inside `_calc_strip_size` — coerces with `|| 1` exactly like `0`). -/
def Renderer.init (gl : Nat) (w h : Int) : Renderer :=
  let r0 : Renderer :=
    { gl := gl, render_width := 0, render_height := 0, num_strips := 0,
      num_sub_strips := 0, strip_size := 0, depth_factor := 0,
      background_mode := 0, noise_seed := 0, tile_texture := none,
      bg_scroll_x := 0, bg_scroll_y := 0, stereo_texture := blankTexture 0 0 }
  let r1 := ((((r0.resize w h).setNumStrips (-1)).setNumSubStrips 2).setDepthFactor (1/75))
  let r2 := (((r1.setBackgroundMode (some BG_NOISE)).setNoiseSeed 0).setBackgroundTileTexture none).setBackgroundTileScroll 0 0
  { r2 with background_mode := BG_NOISE }

/-! ### The shaders (fragment programs), embedded from the GLSL source -/

/-- GLSL `fract`. -/
def fract (x : ℚ) : ℚ := x - ⌊x⌋

/-- The noise shader's
`rand(uv) = fract(sin(dot(uv, vec2(12.9898,78.233))) * (43758.5453 + seed))`. -/
def noise_rand (env : Env) (seed ux uy : ℚ) : ℚ :=
  fract (env.sinq (ux * (129898/10000) + uy * (78233/1000)) * (437585453/10000 + seed))

/-- The noise shader's fragment program: grayscale speckle from `rand`. -/
def noise_frag (env : Env) (seed ux uy : ℚ) : Color :=
  let val := noise_rand env seed ux uy
  (val, val, val)

/-- The passthrough texture shader's fragment program. -/
def texture_frag (env : Env) (ux uy : ℚ) : Color := env.tile ux uy

/-- The stereo displacement shader's fragment program, exactly as in
`create_stereo_shader`. -/
def stereo_frag (env : Env) (tex : Texture)
    (depth_factor strip_size depth_strip_size ux uy : ℚ) : Color :=
  let depth_uv_x : ℚ := (ux / depth_strip_size - 1) * strip_size
  let depth_r : ℚ := env.depth_red depth_uv_x uy
  let delta : ℚ := depth_r * depth_factor
  env.sample tex (ux + delta - strip_size) uy

/-- The `depth_strip_size` uniform value set by `render()`:
`1/(this.num_strips+1)`. -/
def render_depth_strip_size (r : Renderer) : ℚ := 1 / ((r.num_strips : ℚ) + 1)

/-! ### The strip compositor (`render` and its helpers) -/

/-- Normalized screen x of the center of pixel column `px` (the quads
cover the unit square, mapped onto the `rw × rh` viewport). -/
def pixel_sx (rw px : Int) : ℚ := ((px : ℚ) + 1/2) / (rw : ℚ)

/-- Normalized screen y of the center of pixel row `py`. -/
def pixel_sy (rh py : Int) : ℚ := ((py : ℚ) + 1/2) / (rh : ℚ)

/-- The width clamp at the top of `_copy_strip_to_stereo_texture`:
`if (width > this.render_width - x) width = this.render_width - x;`. -/
def clamp_commit_width (rw x width : Int) : Int :=
  if width > rw - x then rw - x else width

/-- Method `_copy_strip_to_stereo_texture(x, width)`: copy the framebuffer
rectangle `[x, x+width) × [0, render_height)` (width clamped) into the
stereogram texture in place.  A total function — the JS code performs no
checks that could throw. -/
def commit_strip (rw rh : Int) (fb : Int → Int → Color) (tex : Texture)
    (x width : Int) : Texture :=
  let w := clamp_commit_width rw x width
  { tex with data := fun px py =>
      if x ≤ px ∧ px < x + w ∧ 0 ≤ py ∧ py < rh then fb px py
      else tex.data px py }

/-- Pixels covered by the reference-strip quad, which spans
`[0, strip_size] × [0, 1]` in normalized screen space (half-open
pixel-center coverage). -/
def reference_covered (r : Renderer) (px py : Int) : Prop :=
  0 ≤ px ∧ ((px : ℚ) + 1/2) < r.strip_size * (r.render_width : ℚ) ∧
    0 ≤ py ∧ py < r.render_height

instance (r : Renderer) (px py : Int) : Decidable (reference_covered r px py) := by
  unfold reference_covered; infer_instance

/-- The fragment produced by `_render_reference_strip` at screen position
`(sx, sy)`: the noise shader with zero scroll, or the tile shader with the
configured scroll, with the texture coordinates interpolated from the quad
attributes (`uv.x = scroll_x + sx/strip_size`,
`uv.y = scroll_y + sy/strip_size`). -/
def reference_draw (env : Env) (r : Renderer) (px py : Int) : Color :=
  let sx := pixel_sx r.render_width px
  let sy := pixel_sy r.render_height py
  if r.background_mode = BG_NOISE then
    noise_frag env r.noise_seed (sx / r.strip_size) (sy / r.strip_size)
  else
    texture_frag env (r.bg_scroll_x + sx / r.strip_size)
      (r.bg_scroll_y + sy / r.strip_size)

/-- Framebuffer contents after `gl.clear` and the reference-strip draw. -/
def reference_fb (env : Env) (r : Renderer) : Int → Int → Color :=
  fun px py =>
    if reference_covered r px py then reference_draw env r px py else black

/-- The sub-strip width fraction `this.strip_size / this.num_sub_strips`
passed to `_render_stereo_strip`. -/
def sub_strip_size (r : Renderer) : ℚ := r.strip_size / (r.num_sub_strips : ℚ)

/-- Pixels covered by the stereo quad of sub-strip `i`, which spans
`[i * sub, (i+1) * sub] × [0, 1]` in normalized screen space. -/
def stereo_covered (r : Renderer) (i px py : Int) : Prop :=
  (i : ℚ) * sub_strip_size r ≤ pixel_sx r.render_width px ∧
    pixel_sx r.render_width px < ((i : ℚ) + 1) * sub_strip_size r ∧
    0 ≤ py ∧ py < r.render_height

instance (r : Renderer) (i px py : Int) : Decidable (stereo_covered r i px py) := by
  unfold stereo_covered; infer_instance

/-- One `_render_stereo_strip(num, strip_size/num_sub_strips)` call
followed by its commit: draw the sub-strip quad with the stereo shader
(whose `frag_uv` equals the normalized screen position, and whose
`stereo_texture` uniform is the texture as committed so far), then copy
columns `[floor(num*sub*rw), floor(num*sub*rw) + floor(sub*rw) + num_sub_strips)`
(clamped) back into the stereogram texture. -/
def stereo_step (env : Env) (r : Renderer)
    (s : (Int → Int → Color) × Texture) (i : Int) : (Int → Int → Color) × Texture :=
  let fb2 : Int → Int → Color := fun px py =>
    if stereo_covered r i px py then
      stereo_frag env s.2 r.depth_factor r.strip_size (render_depth_strip_size r)
        (pixel_sx r.render_width px) (pixel_sy r.render_height py)
    else s.1 px py
  let tex2 := commit_strip r.render_width r.render_height fb2 s.2
      ⌊(i : ℚ) * sub_strip_size r * (r.render_width : ℚ)⌋
      (⌊sub_strip_size r * (r.render_width : ℚ)⌋ + r.num_sub_strips)
  (fb2, tex2)

/-- The sub-strip indices `num_sub_strips * strip + sub` produced by the
nested loops `for (strip = 1; strip < num_strips; strip++)`
`for (sub = 0; sub < num_sub_strips; sub++)` in `render()`. -/
def strip_indices (ns nss : Int) : List Int :=
  (List.range (ns - 1).toNat).flatMap
    (fun (s : Nat) => (List.range nss.toNat).map
      (fun (sub : Nat) => nss * ((s : Int) + 1) + (sub : Int)))

/-- Method `render(depth_map)`: clear, draw and commit the reference strip, then
fold the stereo sub-strip draw-and-commit steps in loop order, threading
the framebuffer and the stereogram texture.  The result is the stereogram
texture after the call. -/
def Renderer.render (env : Env) (r : Renderer) : Texture :=
  let fb1 := reference_fb env r
  let tex1 := commit_strip r.render_width r.render_height fb1 r.stereo_texture 0
      (⌊r.strip_size * (r.render_width : ℚ)⌋ + r.num_sub_strips)
  (List.foldl (stereo_step env r) (fb1, tex1)
    (strip_indices r.num_strips r.num_sub_strips)).2

/-! ### Facts about the adjustment loop -/

theorem next_multiple_dvd (d p : Int) (hd : d ≠ 0) : d ∣ next_multiple d p := by
  rw [next_multiple_eq d p hd]
  have habs : ((d.natAbs : Int)) ∣ p + (-p) % (d.natAbs : Int) := by
    have h := Int.emod_emod_of_dvd (-p) (dvd_refl (d.natAbs : Int))
    have : p + (-p) % (d.natAbs : Int)
        = (d.natAbs : Int) * (-((-p) / (d.natAbs : Int))) := by
      have e0 : (-p) % (d.natAbs : Int) + (d.natAbs : Int) * ((-p) / (d.natAbs : Int)) = -p :=
        Int.emod_add_ediv (-p) (d.natAbs : Int)
      linarith
    exact ⟨_, this⟩
  exact (Int.natAbs_dvd).mp habs

theorem next_multiple_ge (d p : Int) (hd : d ≠ 0) : p ≤ next_multiple d p := by
  rw [next_multiple_eq d p hd]
  have hD : (0 : Int) < (d.natAbs : Int) := by
    exact_mod_cast Int.natAbs_pos.mpr hd
  have := Int.emod_nonneg (-p) (show ((d.natAbs : Int)) ≠ 0 by omega)
  omega

theorem next_multiple_lt (d p : Int) (hd : 0 < d) : next_multiple d p < p + d := by
  rw [next_multiple_eq d p (by omega)]
  have habs : ((d.natAbs : Int)) = d := by
    rw [Int.natAbs_of_nonneg (by omega)]
  rw [habs]
  have := Int.emod_lt_of_pos (-p) hd
  omega

theorem next_multiple_min (d p k : Int) (hd : 0 < d) (hpk : p ≤ k) (hdk : d ∣ k) :
    next_multiple d p ≤ k := by
  by_contra hlt
  push_neg at hlt
  have h1 : d ∣ next_multiple d p - k :=
    dvd_sub (next_multiple_dvd d p (by omega)) hdk
  have h2 : 0 < next_multiple d p - k := by omega
  have h3 : d ≤ next_multiple d p - k := Int.le_of_dvd h2 h1
  have h4 : next_multiple d p < p + d := next_multiple_lt d p hd
  omega

/-! ### Claim theorems -/

/-- C1: for `render_width ≥ 1`, `num_strips ≥ 1` and `num_sub_strips ≥ 1`,
`_calc_strip_size` sets `strip_size_pixels` to the smallest integer that is
at least `render_width/num_strips` and a multiple of `num_sub_strips`;
consequently it is divisible by `num_sub_strips`, bounded below by
`render_width/num_strips`, bounded strictly above by
`render_width/num_strips + num_sub_strips`, and the stored `strip_size`
fraction equals `strip_size_pixels / render_width`. -/
theorem C1_strip_geometry (render_width num_strips num_sub_strips : Int)
    (hrw : 1 ≤ render_width) (hns : 1 ≤ num_strips) (hnss : 1 ≤ num_sub_strips) :
    IsLeast {n : Int |
        (render_width : ℚ) / (num_strips : ℚ) ≤ (n : ℚ) ∧ num_sub_strips ∣ n}
      (calc_strip_size_pixels render_width num_strips num_sub_strips) ∧
    calc_strip_size_pixels render_width num_strips num_sub_strips % num_sub_strips = 0 ∧
    (render_width : ℚ) / (num_strips : ℚ)
      ≤ ((calc_strip_size_pixels render_width num_strips num_sub_strips : Int) : ℚ) ∧
    ((calc_strip_size_pixels render_width num_strips num_sub_strips : Int) : ℚ)
      < (render_width : ℚ) / (num_strips : ℚ) + (num_sub_strips : ℚ) ∧
    calc_strip_size render_width num_strips num_sub_strips
      = ((calc_strip_size_pixels render_width num_strips num_sub_strips : Int) : ℚ)
          / (render_width : ℚ) := by
  have hrw' : jsOr1 render_width = render_width := jsOr1_of_pos (by omega)
  have hns' : jsOr1 num_strips = num_strips := jsOr1_of_pos (by omega)
  have hnss' : jsOr1 num_sub_strips = num_sub_strips := jsOr1_of_pos (by omega)
  have hpix : calc_strip_size_pixels render_width num_strips num_sub_strips
      = next_multiple num_sub_strips ⌈(render_width : ℚ) / (num_strips : ℚ)⌉ := by
    unfold calc_strip_size_pixels
    rw [hrw', hns', hnss']
  set c : Int := ⌈(render_width : ℚ) / (num_strips : ℚ)⌉ with hc
  set P : Int := calc_strip_size_pixels render_width num_strips num_sub_strips with hPdef
  have hd0 : num_sub_strips ≠ 0 := by omega
  have hdvd : num_sub_strips ∣ P := by rw [hpix]; exact next_multiple_dvd _ _ hd0
  have hgec : c ≤ P := by rw [hpix]; exact next_multiple_ge _ _ hd0
  have hltc : P < c + num_sub_strips := by rw [hpix]; exact next_multiple_lt _ _ (by omega)
  have hlow : (render_width : ℚ) / (num_strips : ℚ) ≤ (P : ℚ) := by
    calc (render_width : ℚ) / (num_strips : ℚ) ≤ (c : ℚ) := Int.le_ceil _
    _ ≤ (P : ℚ) := by exact_mod_cast hgec
  refine ⟨⟨⟨hlow, hdvd⟩, ?_⟩, Int.emod_eq_zero_of_dvd hdvd, hlow, ?_, ?_⟩
  · rintro k ⟨hk1, hk2⟩
    have hck : c ≤ k := by
      rw [hc]
      exact Int.ceil_le.mpr hk1
    rw [hpix]
    exact next_multiple_min _ _ _ (by omega) hck hk2
  · have hcup : (c : ℚ) < (render_width : ℚ) / (num_strips : ℚ) + 1 :=
      Int.ceil_lt_add_one _
    have hltc' : P ≤ c + num_sub_strips - 1 := by omega
    have : (P : ℚ) ≤ (c : ℚ) + (num_sub_strips : ℚ) - 1 := by exact_mod_cast hltc'
    linarith
  · unfold calc_strip_size
    rw [hrw', ← hPdef]

/-- C1 witness: the hypotheses hold and the theorem applies at
`render_width = 640`, `num_strips = 6`, `num_sub_strips = 2`. -/
theorem C1_strip_geometry_witness :
    ((1 : Int) ≤ 640 ∧ (1 : Int) ≤ 6 ∧ (1 : Int) ≤ 2) ∧
    calc_strip_size_pixels 640 6 2 % 2 = 0 ∧
    calc_strip_size 640 6 2 = ((calc_strip_size_pixels 640 6 2 : Int) : ℚ) / 640 := by
  refine ⟨⟨by decide, by decide, by decide⟩, ?_, ?_⟩
  · exact (C1_strip_geometry 640 6 2 (by decide) (by decide) (by decide)).2.1
  · exact (C1_strip_geometry 640 6 2 (by decide) (by decide) (by decide)).2.2.2.2

/-- Following the claim's words, for comparison with the code: the strip
geometry calculation where every zero-or-negative input is coerced to a
safe default of at least 1 before the computation. -/
def calc_strip_size_pixels_spec_min1 (render_width num_strips num_sub_strips : Int) : Int :=
  calc_strip_size_pixels (max render_width 1) (max num_strips 1) (max num_sub_strips 1)

/-- Evaluation helper: ceiling of `10 / 2` after the source's coercions. -/
theorem ceil_ten_two : (⌈((jsOr1 10 : Int) : ℚ) / ((jsOr1 2 : Int) : ℚ)⌉ : Int) = 5 := by
  norm_num [jsOr1, Int.ceil_eq_iff]

/-- C5 counterexample: with `num_sub_strips = -3` (negative, hence
"offending"), the code computes `strip_size_pixels = 6`, while coercing the
offending value to a minimum of 1 as the claim states would give `5`: the
geometry calculation does not coerce negative values. -/
theorem C5_counterexample :
    calc_strip_size_pixels 10 2 (-3) ≠ calc_strip_size_pixels_spec_min1 10 2 (-3) := by
  unfold calc_strip_size_pixels_spec_min1
  unfold calc_strip_size_pixels
  rw [show (max (10:Int) 1) = 10 by decide, show (max (2:Int) 1) = 2 by decide,
      show (max (-3:Int) 1) = 1 by decide]
  rw [next_multiple_eq _ _ (by decide), next_multiple_eq _ _ (by decide), ceil_ten_two]
  decide

/-- C5 (amended): a zero value of `render_width`, `num_strips` or
`num_sub_strips` is coerced to 1 (the computation on the raw inputs agrees
with the computation on the `|| 1`-coerced inputs), and for every integer
configuration — negatives included, which are passed through uncoerced —
the calculation completes without error (it is a total function) and
yields a `strip_size_pixels` divisible by the coerced `num_sub_strips`,
with `strip_size` the ratio of `strip_size_pixels` to the coerced
`render_width`. -/
theorem C5_zero_coercion (render_width num_strips num_sub_strips : Int) :
    calc_strip_size_pixels render_width num_strips num_sub_strips
      = calc_strip_size_pixels (jsOr1 render_width) (jsOr1 num_strips)
          (jsOr1 num_sub_strips) ∧
    jsOr1 num_sub_strips ∣ calc_strip_size_pixels render_width num_strips num_sub_strips ∧
    calc_strip_size render_width num_strips num_sub_strips
      = ((calc_strip_size_pixels render_width num_strips num_sub_strips : Int) : ℚ)
          / ((jsOr1 render_width : Int) : ℚ) := by
  refine ⟨?_, ?_, rfl⟩
  · unfold calc_strip_size_pixels
    rw [jsOr1_idem, jsOr1_idem, jsOr1_idem]
  · unfold calc_strip_size_pixels
    exact next_multiple_dvd _ _ (jsOr1_ne_zero _)

/-- Evaluation helper: ceiling of `8 * 640 / 1000`. -/
theorem ceil_auto_640 : (⌈(8 * ((640 : Int) : ℚ)) / 1000⌉ : Int) = 6 := by
  norm_num [Int.ceil_eq_iff]

/-- Evaluation helper: ceiling of `640 / 6` after the source's coercions. -/
theorem ceil_640_6 : (⌈((jsOr1 640 : Int) : ℚ) / ((jsOr1 6 : Int) : ℚ)⌉ : Int) = 107 := by
  norm_num [jsOr1, Int.ceil_eq_iff]

/-- Concrete evaluation: the strip pixel width at
`render_width = 640`, `num_strips = 6`, `num_sub_strips = 2` is 108. -/
theorem calc_640_6_2_pixels : calc_strip_size_pixels 640 6 2 = 108 := by
  unfold calc_strip_size_pixels
  rw [next_multiple_eq _ _ (by decide), ceil_640_6]
  decide

/-- Concrete evaluation: the strip fraction at
`render_width = 640`, `num_strips = 6`, `num_sub_strips = 2` is
`108/640 = 27/160 = 0.16875`. -/
theorem calc_640_6_2_fraction : calc_strip_size 640 6 2 = 27 / 160 := by
  unfold calc_strip_size
  rw [calc_640_6_2_pixels]
  norm_num [jsOr1]

/-- C7: a negative strip-count request is resolved by `setNumStrips` to
`ceil(8 * render_width / 1000)` before the geometry is recomputed; at
`render_width = 640` with `num_sub_strips = 2`, requesting `-1` resolves
to 6 strips, `strip_size_pixels = 108`, and the stored fraction is
`108/640 = 0.16875`. -/
theorem C7_auto_num_strips :
    (∀ (r : Renderer) (n : Int), n < 0 →
      (r.setNumStrips n).num_strips = ⌈(8 * (r.render_width : ℚ)) / 1000⌉) ∧
    (∀ r : Renderer, r.render_width = 640 → r.num_sub_strips = 2 →
      (r.setNumStrips (-1)).num_strips = 6 ∧
      (r.setNumStrips (-1)).strip_size = 27 / 160) ∧
    calc_strip_size_pixels 640 6 2 = 108 ∧
    (27 / 160 : ℚ) = 108 / 640 := by
  refine ⟨?_, ?_, calc_640_6_2_pixels, by norm_num⟩
  · intro r n hn
    simp only [Renderer.setNumStrips, Renderer.calcStripSize, if_pos hn]
  · intro r hw hsub
    have hns : (⌈(8 * (r.render_width : ℚ)) / 1000⌉ : Int) = 6 := by
      rw [hw]; exact_mod_cast ceil_auto_640
    constructor
    · simp only [Renderer.setNumStrips, Renderer.calcStripSize]
      rw [if_pos (by norm_num : (-1 : Int) < 0), hns]
    · simp only [Renderer.setNumStrips, Renderer.calcStripSize]
      rw [if_pos (by norm_num : (-1 : Int) < 0), hns, hw, hsub]
      exact calc_640_6_2_fraction

/-- A concrete renderer state matching the C7 scenario (`640 × 360`,
6 strips, 2 sub-strips, `strip_size = 27/160`, which equals
`calc_strip_size 640 6 2` by `calc_640_6_2_fraction`). -/
def wRenderer : Renderer :=
  { gl := 0, render_width := 640, render_height := 360, num_strips := 6,
    num_sub_strips := 2, strip_size := 27/160,
    depth_factor := 1/75, background_mode := BG_NOISE, noise_seed := 0,
    tile_texture := none, bg_scroll_x := 0, bg_scroll_y := 0,
    stereo_texture := blankTexture 640 360 }

/-- C7 witness: the hypotheses hold and the theorem applies at the
concrete state `wRenderer` with request `-1`. -/
theorem C7_auto_num_strips_witness :
    ((-1 : Int) < 0 ∧ wRenderer.render_width = 640 ∧ wRenderer.num_sub_strips = 2) ∧
    (wRenderer.setNumStrips (-1)).num_strips = 6 ∧
    (wRenderer.setNumStrips (-1)).strip_size = 27 / 160 := by
  refine ⟨⟨by decide, rfl, rfl⟩, ?_⟩
  exact C7_auto_num_strips.2.1 wRenderer rfl rfl

/-- Evaluation helper: ceiling of `1000 / 6` after the source's coercions. -/
theorem ceil_1000_6 : (⌈((jsOr1 1000 : Int) : ℚ) / ((jsOr1 6 : Int) : ℚ)⌉ : Int) = 167 := by
  norm_num [jsOr1, Int.ceil_eq_iff]

/-- Concrete evaluation: the strip fraction at
`render_width = 1000`, `num_strips = 6`, `num_sub_strips = 2` is
`168/1000 = 21/125`. -/
theorem calc_1000_6_2_fraction : calc_strip_size 1000 6 2 = 21 / 125 := by
  unfold calc_strip_size calc_strip_size_pixels
  rw [next_multiple_eq _ _ (by decide), ceil_1000_6]
  norm_num [jsOr1]

/-- C9 counterexample: resizing the concrete `640`-wide renderer to width
`1000` leaves `strip_size = 108/640` in place, which differs from the
geometry recomputed for the new width (`168/1000`): `resize` does not
recompute the strip geometry. -/
theorem C9_counterexample :
    (wRenderer.resize 1000 700).strip_size
      ≠ calc_strip_size (wRenderer.resize 1000 700).render_width
          (wRenderer.resize 1000 700).num_strips
          (wRenderer.resize 1000 700).num_sub_strips := by
  have h1 : (wRenderer.resize 1000 700).strip_size = 27/160 := rfl
  have h2 : calc_strip_size (wRenderer.resize 1000 700).render_width
      (wRenderer.resize 1000 700).num_strips
      (wRenderer.resize 1000 700).num_sub_strips = calc_strip_size 1000 6 2 := rfl
  rw [h1, h2, calc_1000_6_2_fraction]
  norm_num

/-- C9 (amended): after `resize(width, height)`, `render_width` and
`render_height` equal the new values and the stereogram texture is
replaced by a fresh blank `width × height` texture, without error; the
strip counts are kept, and `strip_size` is NOT recomputed — it keeps its
previous value until `setNumStrips` or `setNumSubStrips` is called. -/
theorem C9_resize (r : Renderer) (w h : Int) :
    (r.resize w h).render_width = w ∧
    (r.resize w h).render_height = h ∧
    (r.resize w h).stereo_texture = blankTexture w h ∧
    (r.resize w h).num_strips = r.num_strips ∧
    (r.resize w h).num_sub_strips = r.num_sub_strips ∧
    (r.resize w h).strip_size = r.strip_size :=
  ⟨rfl, rfl, rfl, rfl, rfl, rfl⟩

/-- C4: for `0 ≤ x ≤ render_width`, the commit-strip operation clamps the
copied width to `min(width, render_width - x)`, overwrites exactly the
texel rectangle `[x, x + min(width, render_width - x)) × [0, render_height)`
(that many columns) with framebuffer contents and leaves every other texel
unchanged, every written column lies inside `[0, render_width)`, and the
operation is total (never throws). -/
theorem C4_commit_clamp (rw rh : Int) (fb : Int → Int → Color) (tex : Texture)
    (x width : Int) (hx0 : 0 ≤ x) (_hxw : x ≤ rw) :
    clamp_commit_width rw x width = min width (rw - x) ∧
    (∀ px py, (commit_strip rw rh fb tex x width).data px py
        = if x ≤ px ∧ px < x + min width (rw - x) ∧ 0 ≤ py ∧ py < rh
          then fb px py else tex.data px py) ∧
    (∀ px, x ≤ px → px < x + min width (rw - x) → 0 ≤ px ∧ px < rw) ∧
    (Finset.Ico x (x + min width (rw - x))).card = (min width (rw - x)).toNat ∧
    (commit_strip rw rh fb tex x width).width = tex.width ∧
    (commit_strip rw rh fb tex x width).height = tex.height := by
  have hclamp : clamp_commit_width rw x width = min width (rw - x) := by
    unfold clamp_commit_width
    split <;> omega
  refine ⟨hclamp, ?_, ?_, ?_, rfl, rfl⟩
  · intro px py
    simp only [commit_strip, hclamp]
  · intro px hpx1 hpx2
    omega
  · rw [Int.card_Ico]
    congr 1
    omega

/-- C4 witness: the hypotheses hold and the theorem applies at
`render_width = 10`, `render_height = 5`, `x = 3`, `width = 20` (an
overrunning request, clamped to 7 columns). -/
theorem C4_commit_clamp_witness :
    ((0 : Int) ≤ 3 ∧ (3 : Int) ≤ 10) ∧
    clamp_commit_width 10 3 20 = min 20 (10 - 3) ∧
    (Finset.Ico (3 : Int) (3 + min 20 (10 - 3))).card = (min (20 : Int) (10 - 3)).toNat := by
  refine ⟨⟨by decide, by decide⟩, ?_, ?_⟩
  · exact (C4_commit_clamp 10 5 (fun _ _ => black) (blankTexture 10 5) 3 20
      (by decide) (by decide)).1
  · exact (C4_commit_clamp 10 5 (fun _ _ => black) (blankTexture 10 5) 3 20
      (by decide) (by decide)).2.2.2.1

/-! ### The sub-strip index sequence -/

theorem strip_indices_aux (nss : Int) (hnss : 0 ≤ nss) (m : Nat) :
    (List.range m).flatMap
        (fun (s : Nat) => (List.range nss.toNat).map
          (fun (sub : Nat) => nss * ((s : Int) + 1) + (sub : Int)))
      = (List.range (m * nss.toNat)).map (fun (k : Nat) => nss + (k : Int)) := by
  induction m with
  | zero => simp
  | succ m ih =>
    rw [List.range_succ, List.flatMap_append, ih]
    rw [show (m + 1) * nss.toNat = m * nss.toNat + nss.toNat by ring]
    rw [List.range_add, List.map_append, List.map_map]
    congr 1
    simp only [List.flatMap_cons, List.flatMap_nil, List.append_nil, Function.comp_def]
    apply List.map_congr_left
    intro sub _
    have hc : ((nss.toNat : Nat) : Int) = nss := Int.toNat_of_nonneg hnss
    push_cast [hc]
    ring

theorem strip_indices_eq (ns nss : Int) (hnss : 0 ≤ nss) :
    strip_indices ns nss
      = (List.range ((ns - 1).toNat * nss.toNat)).map (fun (k : Nat) => nss + (k : Int)) :=
  strip_indices_aux nss hnss ((ns - 1).toNat)

/-- C3 counterexample: with `num_strips = 2` and `num_sub_strips = 2`,
`render()` performs `1 + 2 = 3` draw-and-copy steps (one reference commit,
then the sub-strips of strip 1), not `2 * 2 + 1 = 5` as the claim states. -/
theorem C3_counterexample :
    ¬ ((strip_indices 2 2).length + 1 = 2 * 2 + 1) := by decide

/-- C3 (amended): every `render()` call performs exactly
`(num_strips - 1) * num_sub_strips + 1` sequential draw-and-copy steps
(the `+ 1` being the reference strip), the stereo sub-strip indices are
strictly increasing, and the fold is sequential: the sub-strip at the head
of the loop is drawn and committed (producing the texture state) before
the remaining sub-strips are processed. -/
theorem C3_step_sequence (ns nss : Int) :
    (strip_indices ns nss).length + 1 = (ns - 1).toNat * nss.toNat + 1 ∧
    List.Pairwise (· < ·) (strip_indices ns nss) ∧
    (∀ (env : Env) (r : Renderer) (i : Int) (rest : List Int)
        (s : (Int → Int → Color) × Texture),
      List.foldl (stereo_step env r) s (i :: rest)
        = List.foldl (stereo_step env r) (stereo_step env r s i) rest) := by
  rcases lt_or_le nss 0 with h | h
  · have hz : nss.toNat = 0 := by omega
    have hempty : strip_indices ns nss = [] := by
      simp [strip_indices, hz]
    refine ⟨?_, ?_, fun env r i rest s => rfl⟩
    · rw [hempty, hz]; simp
    · rw [hempty]; exact List.Pairwise.nil
  · refine ⟨?_, ?_, fun env r i rest s => rfl⟩
    · rw [strip_indices_eq ns nss h]
      simp
    · rw [strip_indices_eq ns nss h]
      refine (List.pairwise_lt_range _).map _ ?_
      intro a b hab
      omega

/-- A concrete sampling environment for instantiating theorems with
hypotheses: zero sine, black samplers, zero depth. -/
def env0 : Env :=
  { sinq := fun _ => 0, sample := fun _ _ _ => black,
    depth_red := fun _ _ => 0, tile := fun _ _ => black }

/-- C2: the displacement shader computes each output color by mapping the
fragment x into depth space via
`depth_uv.x = (frag_x / depth_strip_size - 1) * strip_size` with
`depth_uv.y = frag_y`, scaling the depth sample's red channel by
`depth_factor` to get `delta`, and sampling the stereogram texture at
`(frag_x + delta - strip_size, frag_y)`; and the sub-strip draw in
`render()` feeds it the uniforms `depth_strip_size = 1/(num_strips+1)`,
`strip_size` = the geometry fraction, and the committed texture. -/
theorem C2_displacement_shader (env : Env) (r : Renderer) (tex : Texture)
    (ux uy : ℚ) (i px py : Int) (s : (Int → Int → Color) × Texture) :
    stereo_frag env tex r.depth_factor r.strip_size (render_depth_strip_size r) ux uy
      = env.sample tex
          (ux + env.depth_red ((ux / (1 / ((r.num_strips : ℚ) + 1)) - 1) * r.strip_size) uy
              * r.depth_factor - r.strip_size) uy ∧
    (stereo_covered r i px py →
      (stereo_step env r s i).1 px py
        = stereo_frag env s.2 r.depth_factor r.strip_size (render_depth_strip_size r)
            (pixel_sx r.render_width px) (pixel_sy r.render_height py)) := by
  refine ⟨rfl, ?_⟩
  intro h
  simp only [stereo_step, if_pos h]

/-- C2 witness: the coverage hypothesis holds and the theorem applies at
sub-strip index 2, pixel `(108, 0)` of the concrete `640 × 360` state. -/
theorem C2_displacement_shader_witness :
    stereo_covered wRenderer 2 108 0 ∧
    (stereo_step env0 wRenderer (fun _ _ => black, blankTexture 640 360) 2).1 108 0
      = stereo_frag env0 (blankTexture 640 360) wRenderer.depth_factor
          wRenderer.strip_size (render_depth_strip_size wRenderer)
          (pixel_sx wRenderer.render_width 108) (pixel_sy wRenderer.render_height 0) := by
  have hcov : stereo_covered wRenderer 2 108 0 := by
    unfold stereo_covered sub_strip_size pixel_sx wRenderer
    norm_num
  exact ⟨hcov, (C2_displacement_shader env0 wRenderer (blankTexture 640 360)
    0 0 2 108 0 (fun _ _ => black, blankTexture 640 360)).2 hcov⟩

/-! ### The public operation surface -/

/-- Operations a caller can perform on a renderer between frames (the
public setter surface of `Stereogram.Renderer`). -/
inductive Op where
  | opResize (w h : Int)
  | opSetNumStrips (n : Int)
  | opSetNumSubStrips (n : Int)
  | opSetBackgroundMode (mode : Option Int)
  | opSetBackgroundTileTexture (t : Option Nat)
  | opSetBackgroundTileScroll (x y : ℚ)
  | opSetNoiseSeed (s : ℚ)
  | opSetDepthFactor (f : ℚ)

/-- Dispatch of an operation to the corresponding method. -/
def apply_op (r : Renderer) : Op → Renderer
  | .opResize w h => r.resize w h
  | .opSetNumStrips n => r.setNumStrips n
  | .opSetNumSubStrips n => r.setNumSubStrips n
  | .opSetBackgroundMode m => r.setBackgroundMode m
  | .opSetBackgroundTileTexture t => r.setBackgroundTileTexture t
  | .opSetBackgroundTileScroll x y => r.setBackgroundTileScroll x y
  | .opSetNoiseSeed s => r.setNoiseSeed s
  | .opSetDepthFactor f => r.setDepthFactor f

theorem apply_op_background_mode (r : Renderer) (op : Op) :
    (apply_op r op).background_mode = r.background_mode ∨
    (apply_op r op).background_mode = BG_NOISE ∨
    (apply_op r op).background_mode = BG_TILE := by
  cases op with
  | opSetBackgroundMode m =>
    right
    simp only [apply_op, Renderer.setBackgroundMode]
    split
    · exact Or.inl rfl
    · exact Or.inr rfl
  | opResize w h => exact Or.inl rfl
  | opSetNumStrips n => exact Or.inl rfl
  | opSetNumSubStrips n => exact Or.inl rfl
  | opSetBackgroundTileTexture t => exact Or.inl rfl
  | opSetBackgroundTileScroll x y => exact Or.inl rfl
  | opSetNoiseSeed s => exact Or.inl rfl
  | opSetDepthFactor f => exact Or.inl rfl

theorem foldl_background_mode (ops : List Op) (r : Renderer)
    (h : r.background_mode = BG_NOISE ∨ r.background_mode = BG_TILE) :
    (ops.foldl apply_op r).background_mode = BG_NOISE ∨
    (ops.foldl apply_op r).background_mode = BG_TILE := by
  induction ops generalizing r with
  | nil => exact h
  | cons op rest ih =>
    rw [List.foldl_cons]
    apply ih
    rcases apply_op_background_mode r op with h0 | h0 | h0
    · rw [h0]; exact h
    · exact Or.inl h0
    · exact Or.inr h0

/-- C10: `setBackgroundMode` stores `BG_NOISE` exactly when the argument
is the number `BG_NOISE` and `BG_TILE` for every other value (including
`undefined`, as when the demo passes the nonexistent
`Stereogram.BG_SCROLL`); consequently after construction and any sequence
of public operations, `background_mode ∈ {BG_NOISE, BG_TILE}`. -/
theorem C10_background_mode (gl : Nat) (w h : Int) (ops : List Op)
    (r : Renderer) (mode : Option Int) :
    ((ops.foldl apply_op (Renderer.init gl w h)).background_mode = BG_NOISE ∨
     (ops.foldl apply_op (Renderer.init gl w h)).background_mode = BG_TILE) ∧
    ((r.setBackgroundMode mode).background_mode = BG_NOISE ↔ mode = some BG_NOISE) ∧
    (r.setBackgroundMode none).background_mode = BG_TILE := by
  refine ⟨foldl_background_mode ops _ (Or.inl rfl), ?_, rfl⟩
  simp only [Renderer.setBackgroundMode]
  split
  · rename_i hm
    simp [hm]
  · rename_i hm
    constructor
    · intro hbad
      exact absurd hbad (by decide)
    · intro hmode
      exact absurd hmode hm

/-- C6: `render()` is a deterministic function of the renderer's
configuration fields and its inputs (the depth and tile samplers of the
environment and the incoming stereogram texture): two states agreeing on
all semantic fields — they may differ in the opaque context/shader
handles — produce identical output textures under the same environment;
the model contains no random state, faithfully to the source, which calls
no random-number generator inside `render()`. -/
theorem C6_render_deterministic (env : Env) (r1 r2 : Renderer)
    (h : r1.render_width = r2.render_width ∧
         r1.render_height = r2.render_height ∧
         r1.num_strips = r2.num_strips ∧
         r1.num_sub_strips = r2.num_sub_strips ∧
         r1.strip_size = r2.strip_size ∧
         r1.depth_factor = r2.depth_factor ∧
         r1.background_mode = r2.background_mode ∧
         r1.noise_seed = r2.noise_seed ∧
         r1.tile_texture = r2.tile_texture ∧
         r1.bg_scroll_x = r2.bg_scroll_x ∧
         r1.bg_scroll_y = r2.bg_scroll_y ∧
         r1.stereo_texture = r2.stereo_texture) :
    Renderer.render env r1 = Renderer.render env r2 := by
  obtain ⟨h1, h2, h3, h4, h5, h6, h7, h8, h9, h10, h11, h12⟩ := h
  cases r1
  cases r2
  dsimp only at h1 h2 h3 h4 h5 h6 h7 h8 h9 h10 h11 h12
  subst h1 h2 h3 h4 h5 h6 h7 h8 h9 h10 h11 h12
  rfl

/-- A copy of the concrete state with a different context handle. -/
def wRendererGl2 : Renderer := { wRenderer with gl := 2 }

/-- C6 witness: the field-agreement hypothesis holds and the theorem
applies to the two concrete states that differ only in the context
handle. -/
theorem C6_render_deterministic_witness :
    (wRenderer.gl ≠ wRendererGl2.gl ∧
     wRenderer.render_width = wRendererGl2.render_width) ∧
    Renderer.render env0 wRenderer = Renderer.render env0 wRendererGl2 := by
  refine ⟨⟨by decide, rfl⟩, ?_⟩
  exact C6_render_deterministic env0 wRenderer wRendererGl2
    ⟨rfl, rfl, rfl, rfl, rfl, rfl, rfl, rfl, rfl, rfl, rfl, rfl⟩

/-- C8: with `num_strips = 1` (and consistent geometry), `render()` draws
and commits only the reference strip — the stereo loop index list is empty,
no displacement shader runs — and the committed strip is full-width: every
in-range texel of the output holds the background fragment, and every
out-of-range texel keeps its previous value. -/
theorem C8_single_strip (r : Renderer)
    (h1 : r.num_strips = 1) (hrw : 1 ≤ r.render_width)
    (hnss : 1 ≤ r.num_sub_strips)
    (hgeom : r.strip_size
      = calc_strip_size r.render_width r.num_strips r.num_sub_strips) :
    strip_indices r.num_strips r.num_sub_strips = [] ∧
    ∀ (env : Env) (px py : Int),
      (Renderer.render env r).data px py
        = if 0 ≤ px ∧ px < r.render_width ∧ 0 ≤ py ∧ py < r.render_height
          then reference_draw env r px py
          else r.stereo_texture.data px py := by
  have hempty : strip_indices r.num_strips r.num_sub_strips = [] := by
    rw [h1]
    simp [strip_indices]
  set P : Int := calc_strip_size_pixels r.render_width r.num_strips r.num_sub_strips
    with hPdef
  have hrwq : ((r.render_width : ℚ)) ≠ 0 := by
    exact_mod_cast (by omega : r.render_width ≠ 0)
  have hjs : jsOr1 r.render_width = r.render_width := jsOr1_of_pos (by omega)
  have hssrw : r.strip_size * (r.render_width : ℚ) = (P : ℚ) := by
    rw [hgeom]
    unfold calc_strip_size
    rw [hjs, ← hPdef, div_mul_cancel₀ _ hrwq]
  have hfloor : ⌊r.strip_size * (r.render_width : ℚ)⌋ = P := by
    rw [hssrw]
    exact Int.floor_intCast P
  have hPge : r.render_width ≤ P := by
    rw [hPdef]
    unfold calc_strip_size_pixels
    rw [hjs, h1, jsOr1_of_pos (by omega : (0:Int) < 1),
        jsOr1_of_pos (by omega : (0:Int) < r.num_sub_strips)]
    dsimp only
    have hceil : (⌈(r.render_width : ℚ) / ((1 : Int) : ℚ)⌉ : Int) = r.render_width := by
      norm_num
    rw [hceil]
    exact next_multiple_ge _ _ (by omega)
  have hclamp : clamp_commit_width r.render_width 0 (P + r.num_sub_strips)
      = r.render_width := by
    unfold clamp_commit_width
    split <;> omega
  refine ⟨hempty, ?_⟩
  intro env px py
  show (List.foldl (stereo_step env r)
      (reference_fb env r,
        commit_strip r.render_width r.render_height (reference_fb env r)
          r.stereo_texture 0
          (⌊r.strip_size * (r.render_width : ℚ)⌋ + r.num_sub_strips))
      (strip_indices r.num_strips r.num_sub_strips)).2.data px py = _
  rw [hempty, List.foldl_nil]
  simp only [commit_strip, hfloor, hclamp]
  by_cases hin : 0 ≤ px ∧ px < r.render_width ∧ 0 ≤ py ∧ py < r.render_height
  · obtain ⟨ha, hb, hc, hd⟩ := hin
    rw [if_pos ⟨ha, by omega, hc, hd⟩, if_pos ⟨ha, hb, hc, hd⟩]
    have hcov : reference_covered r px py := by
      refine ⟨ha, ?_, hc, hd⟩
      rw [hssrw]
      have hpx' : (px : ℚ) ≤ (r.render_width : ℚ) - 1 := by
        exact_mod_cast (by omega : px ≤ r.render_width - 1)
      have hPq : ((r.render_width : ℚ)) ≤ (P : ℚ) := by exact_mod_cast hPge
      linarith
    unfold reference_fb
    rw [if_pos hcov]
  · rw [if_neg (by omega), if_neg hin]

/-- A concrete single-strip renderer state (`4 × 2`, one strip, one
sub-strip, geometry as `_calc_strip_size` computes it). -/
def w1Renderer : Renderer :=
  { gl := 0, render_width := 4, render_height := 2, num_strips := 1,
    num_sub_strips := 1, strip_size := calc_strip_size 4 1 1,
    depth_factor := 1/75, background_mode := BG_NOISE, noise_seed := 0,
    tile_texture := none, bg_scroll_x := 0, bg_scroll_y := 0,
    stereo_texture := blankTexture 4 2 }

/-- C8 witness: the hypotheses hold and the theorem applies at the
concrete single-strip state, pixel `(0,0)`. -/
theorem C8_single_strip_witness :
    (w1Renderer.num_strips = 1 ∧ (1 : Int) ≤ w1Renderer.render_width ∧
     (1 : Int) ≤ w1Renderer.num_sub_strips) ∧
    (Renderer.render env0 w1Renderer).data 0 0
      = reference_draw env0 w1Renderer 0 0 := by
  refine ⟨⟨rfl, by decide, by decide⟩, ?_⟩
  have h := (C8_single_strip w1Renderer rfl (by decide) (by decide) rfl).2 env0 0 0
  rw [h]
  have hin : (0 : Int) ≤ 0 ∧ (0 : Int) < w1Renderer.render_width ∧
      (0 : Int) ≤ 0 ∧ (0 : Int) < w1Renderer.render_height :=
    ⟨le_refl 0, by decide, le_refl 0, by decide⟩
  rw [if_pos hin]

end Stereogram
